import Mathlib

/-!
Verification of the lock state store of the pdm_tutorial repository
(`backend/app/services/file_service.py` and `backend/app/utils/file_locking.py`).

The development shallowly embeds the Python code:

* the lock table (a Python dict mapping filename to a lock record) becomes an
  association list with unique keys, mirroring dict insertion-order semantics;
* the control file on disk is an `Option String` (`none` = file absent);
* `json.dump(locks, f, indent=2)` is modelled character for character
  (`lockDumps`), including Python's `ensure_ascii` escaping of strings;
* `json.loads` is modelled by `parseLocks`, a character-level parser for the
  grammar of control files this store itself writes (a JSON object whose values
  are objects with the fields `user`, `timestamp`, `message` in that order,
  with arbitrary interleaved JSON whitespace).  Content outside this grammar is
  a parse failure; `load_locks` maps every parse failure to the empty table,
  exactly as the `json.JSONDecodeError` handler in the source does.  The one
  divergence from CPython's `json.loads` is content that is valid JSON but not
  a lock table written by this store, which the store never writes and no claim
  exercises;
* OS level read/write failures are threaded as explicit boolean fault flags;
* the wall clock (`datetime.now(timezone.utc).isoformat()`) is threaded as an
  explicit `now : String` argument.
-/

/-! ### Characters used by the JSON layer -/

def qc : Char := Char.ofNat 34

def bsl : Char := Char.ofNat 92

def lbr : Char := Char.ofNat 123

def rbr : Char := Char.ofNat 125

def nlc : Char := Char.ofNat 10

def spc : Char := Char.ofNat 32

def colonc : Char := Char.ofNat 58

def commac : Char := Char.ofNat 44

/-- Lowercase hexadecimal digit character for a nibble, as CPython's
`json.encoder` emits in `\uXXXX` escapes. -/
def hexChar (n : Nat) : Char :=
  if n < 10 then Char.ofNat (48 + n) else Char.ofNat (87 + n)

/-- The four hex digit characters of `n < 0x10000`, most significant first. -/
def hexQuad (n : Nat) : List Char :=
  [hexChar (n / 4096 % 16), hexChar (n / 256 % 16), hexChar (n / 16 % 16), hexChar (n % 16)]

/-- One character escaped as CPython's `json.dumps` (defaults: `ensure_ascii=True`)
escapes it inside a string literal: the two-character shorthands for quote,
backslash and the five named control characters, printable ASCII verbatim, a
`\uXXXX` escape for every other character of the basic multilingual plane, and a
surrogate pair of `\uXXXX` escapes for astral characters. -/
def jEscChar (c : Char) : List Char :=
  if c = qc then [bsl, qc]
  else if c = bsl then [bsl, bsl]
  else if c = Char.ofNat 10 then [bsl, Char.ofNat 110]
  else if c = Char.ofNat 13 then [bsl, Char.ofNat 114]
  else if c = Char.ofNat 9 then [bsl, Char.ofNat 116]
  else if c = Char.ofNat 8 then [bsl, Char.ofNat 98]
  else if c = Char.ofNat 12 then [bsl, Char.ofNat 102]
  else if 32 ≤ c.toNat ∧ c.toNat ≤ 126 then [c]
  else if c.toNat < 65536 then bsl :: Char.ofNat 117 :: hexQuad c.toNat
  else
    bsl :: Char.ofNat 117 :: hexQuad (55296 + (c.toNat - 65536) / 1024) ++
      bsl :: Char.ofNat 117 :: hexQuad (56320 + (c.toNat - 65536) % 1024)

/-- A whole string rendered as a JSON string literal, closing quote included. -/
def jEscStr (s : String) : List Char :=
  qc :: (s.data.flatMap jEscChar ++ [qc])

/-! ### The lock data model (section 3 of the spec, `file_service.py`) -/

/-- One lock record as `LockManager.acquire_lock` stores it: the value
`{"user": ..., "timestamp": ..., "message": ...}` keyed by filename. -/
structure LockRecord where
  user : String
  timestamp : String
  message : String
deriving DecidableEq, Repr

/-- The lock table: a Python dict from filename to lock record, modelled as an
insertion-ordered association list whose keys are unique. -/
abbrev LockTable := List (String × LockRecord)

/-- Python `filename in locks` / `locks[filename]` on the table. -/
def lookupLock : LockTable → String → Option LockRecord
  | [], _ => none
  | (k, r) :: t, f => if k = f then some r else lookupLock t f

/-- Python `del locks[filename]`: drop the (unique) entry with that key,
keeping the order of the others. -/
def eraseLock : LockTable → String → LockTable
  | [], _ => []
  | (k, r) :: t, f => if k = f then t else (k, r) :: eraseLock t f

/-- Key uniqueness, the dict invariant every real Python table satisfies. -/
def WFLockTable (t : LockTable) : Prop := (t.map Prod.fst).Nodup

instance : DecidablePred WFLockTable := fun t =>
  inferInstanceAs (Decidable ((t.map Prod.fst).Nodup))

/-! ### The serializer: `json.dump(locks, f, indent=2)` character for character -/

/-- The rendered form of one record, as `json.dump` with `indent=2` prints a
dict nested at depth one: braces on their own lines, fields indented four
spaces, `": "` between key and value, `,` + newline between fields. -/
def dumpRecord (r : LockRecord) : List Char :=
  [lbr, nlc, spc, spc, spc, spc] ++ jEscStr "user" ++ [colonc, spc] ++ jEscStr r.user ++
    [commac, nlc, spc, spc, spc, spc] ++ jEscStr "timestamp" ++ [colonc, spc] ++
    jEscStr r.timestamp ++
    [commac, nlc, spc, spc, spc, spc] ++ jEscStr "message" ++ [colonc, spc] ++
    jEscStr r.message ++ [nlc, spc, spc, rbr]

/-- The top level entries, each indented two spaces, separated by `,` + newline. -/
def dumpEntries : LockTable → List Char
  | [] => []
  | [(f, r)] => [spc, spc] ++ jEscStr f ++ [colonc, spc] ++ dumpRecord r
  | (f, r) :: e :: t =>
    [spc, spc] ++ jEscStr f ++ [colonc, spc] ++ dumpRecord r ++ [commac, nlc] ++
      dumpEntries (e :: t)

/-- The full text `json.dump(locks, f, indent=2)` writes: `{}` for the empty
dict, otherwise brace, newline, the indented entries, newline, brace. -/
def lockDumps (t : LockTable) : String :=
  match t with
  | [] => ⟨[lbr, rbr]⟩
  | e :: t => ⟨[lbr, nlc] ++ dumpEntries (e :: t) ++ [nlc, rbr]⟩

/-! ### The parser: `json.loads` on the control file grammar -/

/-- JSON insignificant whitespace (space, tab, newline, carriage return), as
`json.loads` skips between tokens. -/
def jSkip : List Char → List Char
  | [] => []
  | c :: cs =>
    if c = spc ∨ c = Char.ofNat 9 ∨ c = nlc ∨ c = Char.ofNat 13 then jSkip cs else c :: cs

/-- Value of one hexadecimal digit character, upper or lower case. -/
def hexNib (c : Char) : Option Nat :=
  if 48 ≤ c.toNat ∧ c.toNat ≤ 57 then some (c.toNat - 48)
  else if 97 ≤ c.toNat ∧ c.toNat ≤ 102 then some (c.toNat - 87)
  else if 65 ≤ c.toNat ∧ c.toNat ≤ 70 then some (c.toNat - 55)
  else none

/-- The single character named by a two-character JSON escape (the escaped
solidus included, as `json.loads` accepts it). -/
def jShort (e : Char) : Option Char :=
  if e = qc then some qc
  else if e = bsl then some bsl
  else if e = Char.ofNat 47 then some (Char.ofNat 47)
  else if e = Char.ofNat 110 then some nlc
  else if e = Char.ofNat 114 then some (Char.ofNat 13)
  else if e = Char.ofNat 116 then some (Char.ofNat 9)
  else if e = Char.ofNat 98 then some (Char.ofNat 8)
  else if e = Char.ofNat 102 then some (Char.ofNat 12)
  else none

/-- Read four hexadecimal digit characters and combine them into one number. -/
def jQuad : List Char → Option (Nat × List Char)
  | h1 :: h2 :: h3 :: h4 :: cs2 =>
    match hexNib h1, hexNib h2, hexNib h3, hexNib h4 with
    | some a, some b, some d, some g => some (((a * 16 + b) * 16 + d) * 16 + g, cs2)
    | _, _, _, _ => none
  | _ => none

/-- Given a high surrogate value already read, read the `\uXXXX` escape of the
matching low surrogate and combine the pair into one astral character. -/
def jPair (n : Nat) : List Char → Option (Char × List Char)
  | b2 :: u2 :: cs2 =>
    if b2 = bsl ∧ u2 = Char.ofNat 117 then
      match jQuad cs2 with
      | some (m, cs3) =>
        if 56320 ≤ m ∧ m ≤ 57343 then
          some (Char.ofNat (65536 + (n - 55296) * 1024 + (m - 56320)), cs3)
        else none
      | none => none
    else none
  | _ => none

/-- Decode what follows a backslash inside a JSON string literal: a shorthand
escape, a `\uXXXX` escape for a basic-plane character, or a surrogate pair of
`\uXXXX` escapes for an astral character. Lone surrogate escapes are rejected
(no output of the serializer contains one). Returns the decoded character and
the remaining input. -/
def jUnesc : List Char → Option (Char × List Char)
  | [] => none
  | e :: cs1 =>
    if e = Char.ofNat 117 then
      match jQuad cs1 with
      | some (n, cs2) =>
        if n < 55296 ∨ 57344 ≤ n then some (Char.ofNat n, cs2)
        else if n ≤ 56319 then jPair n cs2
        else none
      | none => none
    else (jShort e).map (fun ch => (ch, cs1))

/-- Scan the body of a JSON string literal after its opening quote, undoing
escapes and rejecting raw control characters (the parser is strict, as
`json.loads` is by default). Returns the decoded characters and the input
after the closing quote. Structural on a fuel count; every iteration consumes
at least one input character, so the callers' fuel of input length plus one
never runs out. -/
def jScanStr : Nat → List Char → List Char → Option (List Char × List Char)
  | 0, _, _ => none
  | _ + 1, _, [] => none
  | fuel + 1, acc, c :: cs =>
    if c = qc then some (acc.reverse, cs)
    else if c = bsl then
      match jUnesc cs with
      | some (ch, cs2) => jScanStr fuel (ch :: acc) cs2
      | none => none
    else if c.toNat < 32 then none
    else jScanStr fuel (c :: acc) cs

/-- Parse a complete JSON string literal, opening quote included. -/
def jStr : List Char → Option (String × List Char)
  | [] => none
  | c :: cs =>
    if c = qc then (jScanStr (cs.length + 1) [] cs).map (fun p => (⟨p.1⟩, p.2)) else none

/-- Parse one `"key": "value"` member whose key must be the given field name. -/
def jField (key : String) (cs : List Char) : Option (String × List Char) :=
  match jStr cs with
  | none => none
  | some (k, r1) =>
    if k = key then
      match jSkip r1 with
      | c :: r2 => if c = colonc then jStr (jSkip r2) else none
      | [] => none
    else none

/-- Parse one lock record object: the fields `user`, `timestamp`, `message` in
the order the serializer writes them, with arbitrary whitespace between tokens. -/
def parseRecordJ (cs : List Char) : Option (LockRecord × List Char) :=
  match cs with
  | [] => none
  | c :: cs1 =>
    if c = lbr then
      match jField "user" (jSkip cs1) with
      | none => none
      | some (u, r1) =>
        match jSkip r1 with
        | [] => none
        | c2 :: r2 =>
          if c2 = commac then
            match jField "timestamp" (jSkip r2) with
            | none => none
            | some (ts, r3) =>
              match jSkip r3 with
              | [] => none
              | c3 :: r4 =>
                if c3 = commac then
                  match jField "message" (jSkip r4) with
                  | none => none
                  | some (m, r5) =>
                    match jSkip r5 with
                    | [] => none
                    | c4 :: r6 => if c4 = rbr then some (⟨u, ts, m⟩, r6) else none
                else none
          else none
    else none

/-- Parse one or more comma-separated `"filename": record` entries, ending at
the closing brace of the top level object. Structural on a fuel count; the
callers pass more fuel than the input could ever need. -/
def parseEntriesJ : Nat → List Char → Option (LockTable × List Char)
  | 0, _ => none
  | fuel + 1, cs =>
    match jStr cs with
    | none => none
    | some (f, r1) =>
      match jSkip r1 with
      | [] => none
      | c :: r2 =>
        if c = colonc then
          match parseRecordJ (jSkip r2) with
          | none => none
          | some (lr, r3) =>
            match jSkip r3 with
            | [] => none
            | c2 :: r4 =>
              if c2 = commac then
                match parseEntriesJ fuel (jSkip r4) with
                | some (t, r5) => some ((f, lr) :: t, r5)
                | none => none
              else if c2 = rbr then some ([(f, lr)], r4)
              else none
        else none

/-- Parse a whole control file: a JSON object of lock records and nothing else.
Any other content is a parse failure, which `load_locks` maps to the empty
table exactly as its `json.JSONDecodeError` handler does. -/
def parseLocks (s : String) : Option LockTable :=
  match jSkip s.data with
  | [] => none
  | c :: cs =>
    if c = lbr then
      match jSkip cs with
      | [] => none
      | d :: ds =>
        if d = rbr then (if jSkip ds = [] then some [] else none)
        else
          match parseEntriesJ (s.data.length + 1) (d :: ds) with
          | some (t, rest) => if jSkip rest = [] then some t else none
          | none => none
    else none

/-- What follows the first rendered entry inside the rendered table: either
the closing newline and brace, or the comma, newline and indentation of the
next entry. A proof-side normal form for `dumpEntries`. -/
def entTail : LockTable → List Char → List Char
  | [], X => nlc :: rbr :: X
  | (f, r) :: t, X =>
    commac :: nlc :: spc :: spc :: (jEscStr f ++ (colonc :: spc :: (dumpRecord r ++ entTail t X)))

/-! ### Error taxonomy (Python exceptions raised by the embedded code) -/

/-- The Python exceptions the modelled code can raise. `valueError` covers the
source's conflict signalling (`AlreadyLocked`, `NotLocked`, `NotOwner` and the
facade's `FileNotFound` are all `ValueError`s carrying a message string);
`osError` stands for any OS level I/O failure. -/
inductive PyErr where
  | valueError (msg : String)
  | typeError (msg : String)
  | attributeError (obj attr : String)
  | osError
deriving DecidableEq, Repr

/-! ### `LockManager` (`file_service.py` lines 26-133)

The manager's state is the control file, an `Option String` (`none` when the
file does not exist). OS read/write failures are explicit boolean fault
flags; the sequential claim theorems set them to `false`, the standalone
`load_locks`/`save_locks` theorems exercise them. -/

/-- Python `not content.strip()` restricted to the ASCII whitespace the
serializer can produce. A string that is blank under CPython's wider unicode
notion but not under this one fails `parseLocks` instead, so `load_locks`
returns the empty table either way. -/
def pyBlank (s : String) : Bool :=
  s.data.all fun c =>
    c == spc || c == Char.ofNat 9 || c == nlc || c == Char.ofNat 13 ||
      c == Char.ofNat 11 || c == Char.ofNat 12

/-- `LockManager.load_locks`: missing file yields the empty table; any OS
error inside the `try` is caught by the `except Exception` handler and yields
the empty table; blank content yields the empty table; content `json.loads`
rejects is caught by the `except json.JSONDecodeError` handler and yields the
empty table; otherwise the parsed table is returned. Total by construction,
mirroring the catch-all handlers: no input makes it raise. -/
def load_locks (disk : Option String) (readFault : Bool) : LockTable :=
  match disk with
  | none => []
  | some content =>
    if readFault then []
    else if pyBlank content then []
    else
      match parseLocks content with
      | some t => t
      | none => []

/-- `LockManager.save_locks`: writes the full serialization of the table over
the control file under the Exclusive File Lock; any exception is logged and
re-raised (`except Exception ... raise`), so a write fault reaches the caller. -/
def save_locks (locks : LockTable) (writeFault : Bool) : Except PyErr String :=
  if writeFault then Except.error PyErr.osError
  else Except.ok (lockDumps locks)

/-- `LockManager.__init__`: if the control file does not exist it is created
holding the two characters of an empty JSON object. -/
def lockManagerInit (disk : Option String) : Option String :=
  match disk with
  | none => some ⟨[lbr, rbr]⟩
  | some c => some c

/-- `LockManager.acquire_lock`: load the table, fail with the
already-locked `ValueError` (carrying the existing owner) when the filename
has a record, otherwise insert a record stamped with the caller's clock value
and persist. The pair returned is (result, control file afterwards); on the
error paths `save_locks` is never called, so the file is unchanged. On a
write fault the model also leaves the file unchanged (no claim inspects the
content left behind by a failed write). -/
def acquire_lock (disk : Option String) (filename user message now : String)
    (readFault writeFault : Bool) : Except PyErr Unit × Option String :=
  let locks := load_locks disk readFault
  match lookupLock locks filename with
  | some existing =>
    (Except.error (PyErr.valueError ("File already locked by " ++ existing.user)), disk)
  | none =>
    match save_locks (locks ++ [(filename, ⟨user, now, message⟩)]) writeFault with
    | Except.ok content => (Except.ok (), some content)
    | Except.error e => (Except.error e, disk)

/-- `LockManager.release_lock`: load the table, fail when the filename has no
record, fail carrying the actual owner when the caller is not the owner,
otherwise delete the record and persist. Error paths never reach
`save_locks`, so the control file is unchanged there. -/
def release_lock (disk : Option String) (filename user : String)
    (readFault writeFault : Bool) : Except PyErr Unit × Option String :=
  let locks := load_locks disk readFault
  match lookupLock locks filename with
  | none => (Except.error (PyErr.valueError "File is not locked"), disk)
  | some existing =>
    if existing.user ≠ user then
      (Except.error (PyErr.valueError ("Lock owned by " ++ existing.user ++ ", not " ++ user)),
        disk)
    else
      match save_locks (eraseLock locks filename) writeFault with
      | Except.ok content => (Except.ok (), some content)
      | Except.error e => (Except.error e, disk)

/-! ### `LockedFile` (`file_locking.py`)

The context manager is modelled as the trace of primitive events its
`__enter__`/`__exit__` bodies perform, driven by booleans saying whether the
`open` call and the lock call succeed. The stored `filepath` and `mode` do
not influence the locking control flow, exactly as in the source. -/

/-- The primitive filesystem events of `LockedFile.__enter__`/`__exit__` and
of the body of a `with` block using it. -/
inductive FileEvent where
  | openOk
  | openFail
  | lockAcquired
  | lockFail
  | unlockOk
  | unlockNameError
  | readWrite
  | closed
deriving DecidableEq, Repr

/-- `LockedFile.__init__` stores the path and the open mode. -/
structure LockedFile where
  filepath : String
  mode : String

/-- `LockedFile.__enter__`: `open` first (a failure there propagates at once:
no lock is taken and nothing else runs); then the platform branch takes the
exclusive lock (`msvcrt.locking` with `LK_LOCK` on Windows, `fcntl.flock`
with `LOCK_EX` otherwise); if the lock call raises, the handle is closed and
the error re-raised. -/
def lockedFileEnter (lf : LockedFile) (isWindows openOk lockOk : Bool) :
    List FileEvent × Except PyErr Unit :=
  if openOk = false then ([FileEvent.openFail], Except.error PyErr.osError)
  else if isWindows then
    if lockOk then ([FileEvent.openOk, FileEvent.lockAcquired], Except.ok ())
    else ([FileEvent.openOk, FileEvent.lockFail, FileEvent.closed], Except.error PyErr.osError)
  else
    if lockOk then ([FileEvent.openOk, FileEvent.lockAcquired], Except.ok ())
    else ([FileEvent.openOk, FileEvent.lockFail, FileEvent.closed], Except.error PyErr.osError)

/-- `LockedFile.__exit__` when a file handle is held: on Windows the unlock
call inside `try ... except: pass` succeeds; on Unix the call is spelled
`fnctl.flock(self.file, fileno(), ...)` in the source, a `NameError` the bare
`except` swallows, so the explicit unlock never happens there - the advisory
lock is dropped by the OS when `self.file.close()` closes the handle. Either
way the method then closes the file and returns `False`, propagating any body
exception. -/
def lockedFileExit (lf : LockedFile) (isWindows : Bool) : List FileEvent :=
  if isWindows then [FileEvent.unlockOk, FileEvent.closed]
  else [FileEvent.unlockNameError, FileEvent.closed]

/-- A full `with LockedFile(...) as f:` block: when `__enter__` raises, the
body and `__exit__` never run; otherwise the body performs its I/O (and may
raise), and `__exit__` always runs afterwards, returning `False` so a body
exception propagates. -/
def withLockedFile (lf : LockedFile) (isWindows openOk lockOk bodyRaises : Bool) :
    List FileEvent × Except PyErr Unit :=
  match lockedFileEnter lf isWindows openOk lockOk with
  | (evs, Except.error e) => (evs, Except.error e)
  | (evs, Except.ok ()) =>
    (evs ++ [FileEvent.readWrite] ++ lockedFileExit lf isWindows,
      if bodyRaises then Except.error (PyErr.valueError "body") else Except.ok ())

/-- Whether the OS level exclusive lock is held after a trace: taken by the
lock call, dropped by an explicit unlock or by closing the handle (advisory
locks do not survive their file handle). -/
def lockHeldAfter (evs : List FileEvent) : Bool :=
  evs.foldl
    (fun held e =>
      match e with
      | FileEvent.lockAcquired => true
      | FileEvent.unlockOk => false
      | FileEvent.closed => false
      | _ => held)
    false

/-- Whether a file handle is open after a trace. -/
def handleOpenAfter (evs : List FileEvent) : Bool :=
  evs.foldl
    (fun opn e =>
      match e with
      | FileEvent.openOk => true
      | FileEvent.closed => false
      | _ => opn)
    false

/-! ### `FileRepository` and `FileService` (`file_service.py` lines 138-204)

The repository directory is modelled as the list of names present in it. The
`Path.mkdir` call in `FileRepository.__init__` is modelled at the keyword
level: the method's signature accepts `mode`, `parents` and `exist_ok`, and a
call passing any other keyword raises `TypeError` before anything else runs -
the source passes `exists_ok`. -/

/-- The keyword parameters of `pathlib.Path.mkdir`. -/
def pathMkdirKeywords : List String := ["mode", "parents", "exist_ok"]

/-- The keywords `FileRepository.__init__` passes to `mkdir` (line 147):
`parents=True, exists_ok=True`. -/
def fileRepositoryMkdirCall : List String := ["parents", "exists_ok"]

/-- The repository collaborator: the directory path and the names present in
the directory. -/
structure FileRepository where
  repo_path : String
  dirListing : List String
deriving DecidableEq, Repr

/-- `FileRepository.__init__`: stores the path, then calls
`self.repo_path.mkdir(parents=True, exists_ok=True)`; an unknown keyword makes
the call raise `TypeError` and construction fail. -/
def FileRepository.init (repo_path : String) (dirListing : List String) :
    Except PyErr FileRepository :=
  if fileRepositoryMkdirCall.all (fun k => pathMkdirKeywords.contains k) then
    Except.ok ⟨repo_path, dirListing⟩
  else
    Except.error (PyErr.typeError "mkdir() got an unexpected keyword argument exists_ok")

/-- `FileRepository.file_exists`: whether `repo_path / filename` exists. -/
def FileRepository.file_exists (repo : FileRepository) (filename : String) : Bool :=
  repo.dirListing.contains filename

/-- The Service Facade: `FileService.__init__` assigns `self.repository` and
`self.lock_manager` (whose state is its control file). -/
structure FileService where
  repository : FileRepository
  lock_manager : Option String

/-- `FileService.__init__`: constructs the `FileRepository` first (which runs
the `mkdir` call), then the `LockManager` (which creates the control file if
missing). -/
def FileService.init (repo_path : String) (dirListing : List String)
    (locksDisk : Option String) : Except PyErr FileService :=
  match FileRepository.init repo_path dirListing with
  | Except.error e => Except.error e
  | Except.ok repo => Except.ok ⟨repo, lockManagerInit locksDisk⟩

/-- The attributes a `FileService` instance actually has, for modelling
Python's dynamic attribute lookup. -/
inductive ServiceAttr where
  | repositoryAttr (repo : FileRepository)
  | lockManagerAttr (disk : Option String)

/-- Python `getattr`: `__init__` assigned exactly `repository` and
`lock_manager`; any other name raises `AttributeError`. -/
def FileService.getattr (svc : FileService) (name : String) : Option ServiceAttr :=
  if name = "repository" then some (ServiceAttr.repositoryAttr svc.repository)
  else if name = "lock_manager" then some (ServiceAttr.lockManagerAttr svc.lock_manager)
  else none

/-- `FileService.checkout_file` as written: line 198 reads
`self.respository.file_exists(filename)` - the attribute lookup uses the
misspelled name, so it raises `AttributeError` before any existence check.
The remaining branches model what the lines would do for the attribute they
find (the last branch is unreachable: the looked-up name is fixed). -/
def FileService.checkout_file (svc : FileService) (filename user message now : String) :
    Except PyErr Unit × Option String :=
  match svc.getattr "respository" with
  | none => (Except.error (PyErr.attributeError "FileService" "respository"), svc.lock_manager)
  | some (ServiceAttr.repositoryAttr repo) =>
    if repo.file_exists filename = false then
      (Except.error (PyErr.valueError ("File not found: " ++ filename)), svc.lock_manager)
    else acquire_lock svc.lock_manager filename user message now false false
  | some (ServiceAttr.lockManagerAttr _) =>
    (Except.error (PyErr.typeError "attribute is not a repository"), svc.lock_manager)

/-- `FileService.checkin_file`: delegates to `release_lock`. -/
def FileService.checkin_file (svc : FileService) (filename user : String) :
    Except PyErr Unit × Option String :=
  release_lock svc.lock_manager filename user false false

/-! ### Concurrent acquisition (claim C1)

`acquire_lock` holds the Exclusive File Lock only inside `load_locks` and
again, separately, inside `save_locks`: each of those is one atomic action on
the control file, but the lock is dropped between them. A concurrent acquirer
is therefore a little program with two atomic steps - read the table, then
(after the local check) either finish with the already-locked error or write
the table back - and a scheduler interleaves such programs. -/

/-- The arguments of one concurrent `acquire_lock(filename, user, message)`
call, with the timestamp its clock will produce. -/
structure AcquireCall where
  filename : String
  user : String
  message : String
  now : String
deriving DecidableEq, Repr

deriving instance DecidableEq for Except

/-- Where a concurrent acquirer stands: before its `load_locks`, between load
and save holding its private snapshot of the table, or finished. -/
inductive AcquirePhase where
  | beforeLoad
  | beforeSave (snapshot : LockTable)
  | finished (result : Except PyErr Unit)
deriving DecidableEq, Repr

/-- One atomic step of one acquirer against the shared control file: the
load step takes the snapshot; the save step performs the in-snapshot check
and either finishes with the already-locked error or writes the snapshot
plus the new record over the control file. A finished process does nothing. -/
def acquireStep (disk : Option String) :
    AcquireCall × AcquirePhase → Option String × (AcquireCall × AcquirePhase)
  | (call, AcquirePhase.beforeLoad) =>
    (disk, (call, AcquirePhase.beforeSave (load_locks disk false)))
  | (call, AcquirePhase.beforeSave snapshot) =>
    (match lookupLock snapshot call.filename with
     | some existing =>
       (disk, (call, AcquirePhase.finished (Except.error
         (PyErr.valueError ("File already locked by " ++ existing.user)))))
     | none =>
       match save_locks (snapshot ++ [(call.filename, ⟨call.user, call.now, call.message⟩)])
           false with
       | Except.ok content => (some content, (call, AcquirePhase.finished (Except.ok ())))
       | Except.error e => (disk, (call, AcquirePhase.finished (Except.error e))))
  | (call, AcquirePhase.finished r) => (disk, (call, AcquirePhase.finished r))

/-- The shared control file plus every acquirer's state. -/
structure ConcState where
  disk : Option String
  procs : List (AcquireCall × AcquirePhase)
deriving DecidableEq, Repr

/-- Run a schedule: at each tick the named process performs its next atomic
step (an index out of range is a no-op tick). -/
def runSched (st : ConcState) (sched : List Nat) : ConcState :=
  sched.foldl
    (fun st i =>
      match st.procs.get? i with
      | none => st
      | some p =>
        let r := acquireStep st.disk p
        { disk := r.1, procs := st.procs.set i r.2 })
    st

/-! ### Reachable control file states (claim C9) -/

/-- Control file contents reachable through the store's own operations: the
file `LockManager.__init__` creates, then any number of successful
`acquire_lock`/`release_lock` calls (fault free runs). -/
inductive ReachableDisk : Option String → Prop where
  | init : ReachableDisk (some ⟨[lbr, rbr]⟩)
  | acquire {d d2 : Option String} {f u m now : String} :
    ReachableDisk d → acquire_lock d f u m now false false = (Except.ok (), d2) →
    ReachableDisk d2
  | release {d d2 : Option String} {f u : String} :
    ReachableDisk d → release_lock d f u false false = (Except.ok (), d2) →
    ReachableDisk d2

/-- The same reachability, restricted to acquire calls whose message respects
the request schema's 1-500 character bound (`FileCheckoutRequest.message`,
`schemas/files.py` line 52). -/
inductive ReachableDiskValid : Option String → Prop where
  | init : ReachableDiskValid (some ⟨[lbr, rbr]⟩)
  | acquire {d d2 : Option String} {f u m now : String} :
    ReachableDiskValid d → 1 ≤ m.length → m.length ≤ 500 →
    acquire_lock d f u m now false false = (Except.ok (), d2) →
    ReachableDiskValid d2
  | release {d d2 : Option String} {f u : String} :
    ReachableDiskValid d → release_lock d f u false false = (Except.ok (), d2) →
    ReachableDiskValid d2

/-! ## Theorems

First the JSON codec lemmas (the serializer/parser round trip), then the
store level lemmas, then one theorem per claim. -/

set_option maxRecDepth 10000

/-- A character's code point is a valid scalar value (no surrogates, below
the Unicode ceiling). -/
theorem charValid (c : Char) : c.toNat < 55296 ∨ (57344 ≤ c.toNat ∧ c.toNat < 1114112) :=
  c.valid

/-- `Char.ofNat` inverts `Char.toNat` on valid scalar values. -/
theorem toNat_ofNat {n : Nat} (h : n < 55296 ∨ (57344 ≤ n ∧ n < 1114112)) :
    (Char.ofNat n).toNat = n := by
  have hv : n.isValidChar := by
    rcases h with h | ⟨h1, h2⟩
    · exact Or.inl h
    · exact Or.inr ⟨h1, h2⟩
  rw [Char.ofNat, dif_pos hv]
  rfl

/-- Reading back the emitted hexadecimal digit of a nibble. -/
theorem hexNib_hexChar {k : Nat} (h : k < 16) : hexNib (hexChar k) = some k := by
  interval_cases k <;> decide

/-- Reading back an emitted four-digit hexadecimal quad. -/
theorem jQuad_hexQuad {n : Nat} (h : n < 65536) (X : List Char) :
    jQuad (hexQuad n ++ X) = some (n, X) := by
  have e1 : n / 4096 % 16 < 16 := Nat.mod_lt _ (by omega)
  have e2 : n / 256 % 16 < 16 := Nat.mod_lt _ (by omega)
  have e3 : n / 16 % 16 < 16 := Nat.mod_lt _ (by omega)
  have e4 : n % 16 < 16 := Nat.mod_lt _ (by omega)
  simp only [hexQuad, List.cons_append, List.nil_append, jQuad,
    hexNib_hexChar e1, hexNib_hexChar e2, hexNib_hexChar e3, hexNib_hexChar e4]
  have : ((n / 4096 % 16 * 16 + n / 256 % 16) * 16 + n / 16 % 16) * 16 + n % 16 = n := by
    omega
  rw [this]

/-- Decoding an emitted two-character escape. -/
theorem jUnesc_short {e ch : Char} (hne : e ≠ Char.ofNat 117) (hs : jShort e = some ch)
    (X : List Char) : jUnesc (e :: X) = some (ch, X) := by
  rw [jUnesc, if_neg hne, hs]; rfl

/-- Decoding an emitted `\uXXXX` escape of a basic-plane scalar value. -/
theorem jUnesc_quad {n : Nat} (hlt : n < 65536) (hv : n < 55296 ∨ 57344 ≤ n) (X : List Char) :
    jUnesc (Char.ofNat 117 :: (hexQuad n ++ X)) = some (Char.ofNat n, X) := by
  rw [jUnesc, if_pos rfl, jQuad_hexQuad hlt]
  simp only [if_pos hv]

/-- Decoding an emitted surrogate pair of `\uXXXX` escapes. -/
theorem jUnesc_pair {n : Nat} (h1 : 65536 ≤ n) (h2 : n < 1114112) (X : List Char) :
    jUnesc (Char.ofNat 117 :: (hexQuad (55296 + (n - 65536) / 1024) ++
      (bsl :: Char.ofNat 117 :: (hexQuad (56320 + (n - 65536) % 1024) ++ X))))
      = some (Char.ofNat n, X) := by
  have hm : (n - 65536) % 1024 < 1024 := Nat.mod_lt _ (by omega)
  have hd : (n - 65536) / 1024 < 1024 := by omega
  rw [jUnesc, if_pos rfl, jQuad_hexQuad (by omega)]
  have c1 : ¬(55296 + (n - 65536) / 1024 < 55296 ∨ 57344 ≤ 55296 + (n - 65536) / 1024) := by
    omega
  have c2 : 55296 + (n - 65536) / 1024 ≤ 56319 := by omega
  simp only [if_neg c1, if_pos c2]
  rw [jPair, if_pos ⟨rfl, rfl⟩, jQuad_hexQuad (by omega)]
  have c3 : 56320 ≤ 56320 + (n - 65536) % 1024 ∧ 56320 + (n - 65536) % 1024 ≤ 57343 := by
    omega
  simp only [if_pos c3]
  have : 65536 + (55296 + (n - 65536) / 1024 - 55296) * 1024 +
      (56320 + (n - 65536) % 1024 - 56320) = n := by omega
  rw [this]

/-- One scanner step through a decodable escape sequence. -/
theorem jScanStr_escaped {cs cs2 : List Char} {ch : Char} (h : jUnesc cs = some (ch, cs2))
    (acc : List Char) (fuel : Nat) :
    jScanStr (fuel + 1) acc (bsl :: cs) = jScanStr fuel (ch :: acc) cs2 := by
  rw [jScanStr, if_neg (by decide), if_pos rfl, h]

/-- The scanner stops at an unescaped quote. -/
theorem jScanStr_close (acc cs : List Char) (fuel : Nat) :
    jScanStr (fuel + 1) acc (qc :: cs) = some (acc.reverse, cs) := rfl

/-- One scanner step through a verbatim character. -/
theorem jScanStr_plain {c : Char} (h1 : c ≠ qc) (h2 : c ≠ bsl) (h3 : 32 ≤ c.toNat)
    (acc cs : List Char) (fuel : Nat) :
    jScanStr (fuel + 1) acc (c :: cs) = jScanStr fuel (c :: acc) cs := by
  rw [jScanStr, if_neg h1, if_neg h2, if_neg (by omega)]

/-- One scanner step undoes the escaping of any one character: the heart of
the string round trip, by cases over the branches of `jEscChar`. -/
theorem jEscChar_step (c : Char) (acc X : List Char) (fuel : Nat) :
    jScanStr (fuel + 1) acc (jEscChar c ++ X) = jScanStr fuel (c :: acc) X := by
  by_cases h1 : c = qc
  · subst h1
    have he : jEscChar qc = [bsl, qc] := by decide
    rw [he]
    simp only [List.cons_append, List.nil_append]
    exact jScanStr_escaped (jUnesc_short (by decide) (by decide) X) acc fuel
  by_cases h2 : c = bsl
  · subst h2
    have he : jEscChar bsl = [bsl, bsl] := by decide
    rw [he]
    simp only [List.cons_append, List.nil_append]
    exact jScanStr_escaped (jUnesc_short (by decide) (by decide) X) acc fuel
  by_cases h3 : c = Char.ofNat 10
  · subst h3
    have he : jEscChar (Char.ofNat 10) = [bsl, Char.ofNat 110] := by decide
    rw [he]
    simp only [List.cons_append, List.nil_append]
    exact jScanStr_escaped (jUnesc_short (by decide) (by decide) X) acc fuel
  by_cases h4 : c = Char.ofNat 13
  · subst h4
    have he : jEscChar (Char.ofNat 13) = [bsl, Char.ofNat 114] := by decide
    rw [he]
    simp only [List.cons_append, List.nil_append]
    exact jScanStr_escaped (jUnesc_short (by decide) (by decide) X) acc fuel
  by_cases h5 : c = Char.ofNat 9
  · subst h5
    have he : jEscChar (Char.ofNat 9) = [bsl, Char.ofNat 116] := by decide
    rw [he]
    simp only [List.cons_append, List.nil_append]
    exact jScanStr_escaped (jUnesc_short (by decide) (by decide) X) acc fuel
  by_cases h6 : c = Char.ofNat 8
  · subst h6
    have he : jEscChar (Char.ofNat 8) = [bsl, Char.ofNat 98] := by decide
    rw [he]
    simp only [List.cons_append, List.nil_append]
    exact jScanStr_escaped (jUnesc_short (by decide) (by decide) X) acc fuel
  by_cases h7 : c = Char.ofNat 12
  · subst h7
    have he : jEscChar (Char.ofNat 12) = [bsl, Char.ofNat 102] := by decide
    rw [he]
    simp only [List.cons_append, List.nil_append]
    exact jScanStr_escaped (jUnesc_short (by decide) (by decide) X) acc fuel
  by_cases hp : 32 ≤ c.toNat ∧ c.toNat ≤ 126
  · have he : jEscChar c = [c] := by
      rw [jEscChar, if_neg h1, if_neg h2, if_neg h3, if_neg h4, if_neg h5, if_neg h6,
        if_neg h7, if_pos hp]
    rw [he]
    simp only [List.cons_append, List.nil_append]
    exact jScanStr_plain h1 h2 hp.1 acc X fuel
  by_cases hbmp : c.toNat < 65536
  · have he : jEscChar c = bsl :: Char.ofNat 117 :: hexQuad c.toNat := by
      rw [jEscChar, if_neg h1, if_neg h2, if_neg h3, if_neg h4, if_neg h5, if_neg h6,
        if_neg h7, if_neg hp, if_pos hbmp]
    have hv : c.toNat < 55296 ∨ 57344 ≤ c.toNat := by
      rcases charValid c with h | ⟨ha, _⟩
      · exact Or.inl h
      · exact Or.inr ha
    rw [he]
    simp only [List.cons_append]
    rw [jScanStr_escaped (jUnesc_quad hbmp hv X) acc fuel, Char.ofNat_toNat]
  · have hge : 65536 ≤ c.toNat := by omega
    have hlt : c.toNat < 1114112 := by
      rcases charValid c with h | ⟨_, hb⟩
      · omega
      · exact hb
    have he : jEscChar c = bsl :: Char.ofNat 117 :: hexQuad (55296 + (c.toNat - 65536) / 1024) ++
        bsl :: Char.ofNat 117 :: hexQuad (56320 + (c.toNat - 65536) % 1024) := by
      rw [jEscChar, if_neg h1, if_neg h2, if_neg h3, if_neg h4, if_neg h5, if_neg h6,
        if_neg h7, if_neg hp, if_neg hbmp]
    rw [he]
    simp only [List.cons_append, List.append_assoc]
    rw [jScanStr_escaped (jUnesc_pair hge hlt X) acc fuel, Char.ofNat_toNat]

/-- Scanning the full escaped form of a character list up to the closing
quote recovers the list. -/
theorem jScanStr_flat (s : List Char) : ∀ (acc X : List Char) (fuel : Nat),
    jScanStr (fuel + s.length + 1) acc (s.flatMap jEscChar ++ qc :: X)
      = some (acc.reverse ++ s, X) := by
  induction s with
  | nil =>
    intro acc X fuel
    simp only [List.flatMap_nil, List.nil_append, List.length_nil, Nat.add_zero]
    rw [jScanStr_close]
    simp
  | cons c s ih =>
    intro acc X fuel
    rw [List.flatMap_cons, List.append_assoc, List.length_cons]
    rw [show fuel + (s.length + 1) + 1 = (fuel + s.length + 1) + 1 by omega]
    rw [jEscChar_step, ih]
    simp

/-- Escaping never erases a character. -/
theorem jEscChar_ne_nil (c : Char) : 1 ≤ (jEscChar c).length := by
  rw [jEscChar]
  split_ifs <;> simp [hexQuad]

/-- Escaping a list never shortens it. -/
theorem flat_len_ge (s : List Char) : s.length ≤ (s.flatMap jEscChar).length := by
  induction s with
  | nil => simp
  | cons c s ih =>
    rw [List.flatMap_cons, List.length_append, List.length_cons]
    have := jEscChar_ne_nil c
    omega

/-- The string literal round trip: parsing a rendered string recovers it. -/
theorem jStr_dump (s : String) (rest : List Char) :
    jStr (jEscStr s ++ rest) = some (s, rest) := by
  rw [jEscStr]
  simp only [List.cons_append, List.append_assoc, List.nil_append]
  rw [jStr, if_pos rfl]
  have hlen : (s.data.flatMap jEscChar ++ qc :: rest).length + 1
      = (((s.data.flatMap jEscChar).length - s.data.length) + rest.length + 1)
        + s.data.length + 1 := by
    have hge := flat_len_ge s.data
    simp only [List.length_append, List.length_cons]
    omega
  rw [hlen, jScanStr_flat]
  simp

/-- Skipping whitespace through one whitespace character. -/
theorem jSkip_ws {c : Char} (h : c = spc ∨ c = Char.ofNat 9 ∨ c = nlc ∨ c = Char.ofNat 13)
    (x : List Char) : jSkip (c :: x) = jSkip x := by
  rw [jSkip, if_pos h]

/-- Skipping whitespace through a space. -/
theorem jSkip_spc (x : List Char) : jSkip (spc :: x) = jSkip x := jSkip_ws (Or.inl rfl) x

/-- Skipping whitespace through a newline. -/
theorem jSkip_nlc (x : List Char) : jSkip (nlc :: x) = jSkip x :=
  jSkip_ws (Or.inr (Or.inr (Or.inl rfl))) x

/-- The whitespace skipper stops at any other character. -/
theorem jSkip_stop {c : Char} (h : ¬(c = spc ∨ c = Char.ofNat 9 ∨ c = nlc ∨ c = Char.ofNat 13))
    (x : List Char) : jSkip (c :: x) = c :: x := by
  rw [jSkip, if_neg h]

/-- The empty input has no whitespace to skip. -/
theorem jSkip_nil : jSkip [] = [] := rfl

/-- A rendered string literal starts with a quote, so no skipping happens. -/
theorem jSkip_jEscStr (s : String) (X : List Char) :
    jSkip (jEscStr s ++ X) = jEscStr s ++ X := by
  rw [jEscStr]
  simp only [List.cons_append]
  exact jSkip_stop (by decide) _

/-- The rendered record followed by anything, as one explicit character chain. -/
theorem dumpRecord_cons (r : LockRecord) (X : List Char) :
    dumpRecord r ++ X = lbr :: nlc :: spc :: spc :: spc :: spc :: (jEscStr "user" ++
      (colonc :: spc :: (jEscStr r.user ++
        (commac :: nlc :: spc :: spc :: spc :: spc :: (jEscStr "timestamp" ++
          (colonc :: spc :: (jEscStr r.timestamp ++
            (commac :: nlc :: spc :: spc :: spc :: spc :: (jEscStr "message" ++
              (colonc :: spc :: (jEscStr r.message ++
                (nlc :: spc :: spc :: rbr :: X)))))))))))) := by
  simp only [dumpRecord, List.cons_append, List.append_assoc, List.nil_append]

/-- A rendered record starts with a brace, so no skipping happens. -/
theorem jSkip_dumpRecord (r : LockRecord) (X : List Char) :
    jSkip (dumpRecord r ++ X) = dumpRecord r ++ X := by
  rw [dumpRecord_cons]
  exact jSkip_stop (by decide) _

/-- Parsing a rendered `"key": "value"` member recovers the value. -/
theorem jField_dump (key s : String) (X : List Char) :
    jField key (jEscStr key ++ (colonc :: spc :: (jEscStr s ++ X))) = some (s, X) := by
  rw [jField, jStr_dump]
  simp only [if_pos rfl, if_true, jSkip_stop (show ¬(colonc = spc ∨ colonc = Char.ofNat 9 ∨
    colonc = nlc ∨ colonc = Char.ofNat 13) by decide), jSkip_spc, jSkip_jEscStr, jStr_dump]

/-- Parsing a rendered record recovers it. -/
theorem parseRecordJ_dump (r : LockRecord) (X : List Char) :
    parseRecordJ (dumpRecord r ++ X) = some (r, X) := by
  rw [dumpRecord_cons, parseRecordJ]
  simp only [if_pos rfl, if_true, jSkip_nlc, jSkip_spc, jSkip_jEscStr, jField_dump,
    jSkip_stop (show ¬(commac = spc ∨ commac = Char.ofNat 9 ∨ commac = nlc ∨
      commac = Char.ofNat 13) by decide),
    jSkip_stop (show ¬(rbr = spc ∨ rbr = Char.ofNat 9 ∨ rbr = nlc ∨
      rbr = Char.ofNat 13) by decide)]

/-- Rendered entries followed by the table's closing characters, in `entTail`
normal form. -/
theorem dumpEntries_shape : ∀ (t : LockTable) (f : String) (r : LockRecord) (X : List Char),
    dumpEntries ((f, r) :: t) ++ nlc :: rbr :: X
      = spc :: spc :: (jEscStr f ++ (colonc :: spc :: (dumpRecord r ++ entTail t X)))
  | [], f, r, X => by
    simp only [dumpEntries, entTail, List.cons_append, List.append_assoc, List.nil_append]
  | (f2, r2) :: t2, f, r, X => by
    have ih := dumpEntries_shape t2 f2 r2 X
    simp only [dumpEntries, entTail, List.cons_append, List.append_assoc, List.nil_append]
      at ih ⊢
    rw [ih]

/-- Parsing rendered entries recovers the table, one fuel unit per entry. -/
theorem parseEntriesJ_dump : ∀ (t : LockTable) (f : String) (r : LockRecord) (X : List Char)
    (fuel : Nat),
    parseEntriesJ (fuel + t.length + 1)
      (jEscStr f ++ (colonc :: spc :: (dumpRecord r ++ entTail t X)))
      = some ((f, r) :: t, X)
  | [], f, r, X, fuel => by
    rw [show fuel + List.length [] + 1 = fuel + 1 from by simp]
    rw [parseEntriesJ, jStr_dump]
    simp only [entTail, if_pos rfl, if_true,
      jSkip_stop (show ¬(colonc = spc ∨ colonc = Char.ofNat 9 ∨ colonc = nlc ∨
        colonc = Char.ofNat 13) by decide),
      jSkip_spc, jSkip_nlc, jSkip_dumpRecord, parseRecordJ_dump,
      jSkip_stop (show ¬(rbr = spc ∨ rbr = Char.ofNat 9 ∨ rbr = nlc ∨
        rbr = Char.ofNat 13) by decide),
      if_neg (show ¬(rbr = commac) by decide)]
  | (f2, r2) :: t2, f, r, X, fuel => by
    have ih := parseEntriesJ_dump t2 f2 r2 X fuel
    rw [show fuel + List.length ((f2, r2) :: t2) + 1 = (fuel + t2.length + 1) + 1 from by
      simp [List.length_cons]; omega]
    rw [parseEntriesJ, jStr_dump]
    simp only [entTail, if_pos rfl, if_true,
      jSkip_stop (show ¬(colonc = spc ∨ colonc = Char.ofNat 9 ∨ colonc = nlc ∨
        colonc = Char.ofNat 13) by decide),
      jSkip_spc, jSkip_nlc, jSkip_dumpRecord, parseRecordJ_dump,
      jSkip_stop (show ¬(commac = spc ∨ commac = Char.ofNat 9 ∨ commac = nlc ∨
        commac = Char.ofNat 13) by decide),
      jSkip_jEscStr]
    rw [ih]

/-- A tail never has fewer characters than the entries it renders. -/
theorem entTail_len : ∀ (t : LockTable) (X : List Char), t.length ≤ (entTail t X).length
  | [], X => by simp [entTail]
  | (f, r) :: t, X => by
    have ih := entTail_len t X
    simp only [entTail, List.length_cons, List.length_append]
    omega

/-- `parseEntriesJ_dump` for any sufficient fuel. -/
theorem parseEntriesJ_dump_ge (t : LockTable) (f : String) (r : LockRecord) (X : List Char)
    {fuel : Nat} (h : t.length + 1 ≤ fuel) :
    parseEntriesJ fuel (jEscStr f ++ (colonc :: spc :: (dumpRecord r ++ entTail t X)))
      = some ((f, r) :: t, X) := by
  obtain ⟨k, rfl⟩ : ∃ k, fuel = k + t.length + 1 := ⟨fuel - t.length - 1, by omega⟩
  exact parseEntriesJ_dump t f r X k

/-- The control file round trip at the text level: parsing the exact text the
serializer writes recovers the table, for every table. -/
theorem parseLocks_dump : ∀ t : LockTable, parseLocks (lockDumps t) = some t
  | [] => by decide
  | (f, r) :: t => by
    rw [parseLocks]
    have hdata : (lockDumps ((f, r) :: t)).data
        = lbr :: nlc :: spc :: spc ::
          (jEscStr f ++ (colonc :: spc :: (dumpRecord r ++ entTail t []))) := by
      show [lbr, nlc] ++ dumpEntries ((f, r) :: t) ++ [nlc, rbr] = _
      rw [List.append_assoc, dumpEntries_shape]
      simp only [List.cons_append, List.nil_append]
    simp only [hdata,
      jSkip_stop (show ¬(lbr = spc ∨ lbr = Char.ofNat 9 ∨ lbr = nlc ∨
        lbr = Char.ofNat 13) by decide),
      if_pos rfl, if_true, jSkip_nlc, jSkip_spc, jSkip_jEscStr]
    have hLcons : jEscStr f ++ (colonc :: spc :: (dumpRecord r ++ entTail t []))
        = qc :: (f.data.flatMap jEscChar ++
            (qc :: (colonc :: spc :: (dumpRecord r ++ entTail t [])))) := by
      rw [jEscStr]
      simp only [List.cons_append, List.append_assoc, List.nil_append]
    rw [hLcons]
    simp only [if_neg (show ¬(qc = rbr) by decide)]
    rw [← hLcons]
    rw [parseEntriesJ_dump_ge t f r []
      (by
        simp only [List.length_cons, List.length_append]
        have := entTail_len t ([] : List Char)
        omega)]
    simp [jSkip_nil]

/-- The serializer's output always starts with a brace, so it is never blank. -/
theorem pyBlank_lockDumps (t : LockTable) : pyBlank (lockDumps t) = false := by
  cases t with
  | nil => decide
  | cons e t =>
    show pyBlank ⟨[lbr, nlc] ++ dumpEntries (e :: t) ++ [nlc, rbr]⟩ = false
    rw [pyBlank]
    show List.all (lbr :: (nlc :: (dumpEntries (e :: t) ++ [nlc, rbr]))) _ = false
    rw [List.all_cons]
    rw [show (lbr == spc || lbr == Char.ofNat 9 || lbr == nlc || lbr == Char.ofNat 13 ||
      lbr == Char.ofNat 11 || lbr == Char.ofNat 12) = false from by decide]
    rw [Bool.false_and]

/-- The store round trip at the table level: loading the text `save_locks`
wrote recovers the table. -/
theorem load_dump (t : LockTable) : load_locks (some (lockDumps t)) false = t := by
  rw [load_locks, if_neg (show ¬(false = true) by decide), pyBlank_lockDumps,
    if_neg (show ¬(false = true) by decide)]
  simp only [parseLocks_dump]

/-- `acquire_lock` on a table that already has a record for the filename:
the already-locked error carrying the existing owner, control file unchanged. -/
theorem acquire_lock_locked {t : LockTable} {filename : String} {r : LockRecord}
    (hr : lookupLock t filename = some r) (user message now : String) :
    acquire_lock (some (lockDumps t)) filename user message now false false
      = (Except.error (PyErr.valueError ("File already locked by " ++ r.user)),
         some (lockDumps t)) := by
  simp only [acquire_lock, load_dump, hr]

/-- `acquire_lock` on a free filename: success, and the control file now holds
the serialization of the table with the one new record appended. -/
theorem acquire_lock_free {t : LockTable} {filename : String}
    (hn : lookupLock t filename = none) (user message now : String) :
    acquire_lock (some (lockDumps t)) filename user message now false false
      = (Except.ok (), some (lockDumps (t ++ [(filename, ⟨user, now, message⟩)]))) := by
  simp only [acquire_lock, load_dump, hn, save_locks, if_neg (show ¬(false = true) by decide)]

/-- `release_lock` on a filename with no record: the not-locked error, control
file unchanged. -/
theorem release_lock_notlocked {t : LockTable} {filename : String}
    (hn : lookupLock t filename = none) (user : String) :
    release_lock (some (lockDumps t)) filename user false false
      = (Except.error (PyErr.valueError "File is not locked"), some (lockDumps t)) := by
  simp only [release_lock, load_dump, hn]

/-- `release_lock` by a non-owner: the error carrying the actual owner,
control file unchanged. -/
theorem release_lock_notowner {t : LockTable} {filename : String} {r : LockRecord}
    (hr : lookupLock t filename = some r) {user : String} (hu : r.user ≠ user) :
    release_lock (some (lockDumps t)) filename user false false
      = (Except.error (PyErr.valueError ("Lock owned by " ++ r.user ++ ", not " ++ user)),
         some (lockDumps t)) := by
  simp only [release_lock, load_dump, hr, if_pos hu]

/-- `release_lock` by the owner: success, the record removed and the result
persisted. -/
theorem release_lock_owner {t : LockTable} {filename : String} {r : LockRecord}
    (hr : lookupLock t filename = some r) {user : String} (hu : r.user = user) :
    release_lock (some (lockDumps t)) filename user false false
      = (Except.ok (), some (lockDumps (eraseLock t filename))) := by
  simp only [release_lock, load_dump, hr, if_neg (show ¬(r.user ≠ user) from by simp [hu]),
    save_locks, if_neg (show ¬(false = true) by decide)]

/-- A successful fault-free `acquire_lock` leaves the control file holding the
loaded table plus the one new record. -/
theorem acquire_ok_disk {d d2 : Option String} {f u m now : String}
    (h : acquire_lock d f u m now false false = (Except.ok (), d2)) :
    d2 = some (lockDumps (load_locks d false ++ [(f, ⟨u, now, m⟩)])) := by
  simp only [acquire_lock] at h
  cases heq : lookupLock (load_locks d false) f with
  | some ex =>
    rw [heq] at h
    simp at h
  | none =>
    rw [heq] at h
    simp only [save_locks, if_neg (show ¬(false = true) by decide)] at h
    have := congrArg Prod.snd h
    simpa using this.symm

/-- A successful fault-free `release_lock` leaves the control file holding the
loaded table with the record removed. -/
theorem release_ok_disk {d d2 : Option String} {f u : String}
    (h : release_lock d f u false false = (Except.ok (), d2)) :
    d2 = some (lockDumps (eraseLock (load_locks d false) f)) := by
  simp only [release_lock] at h
  cases heq : lookupLock (load_locks d false) f with
  | none =>
    rw [heq] at h
    simp at h
  | some ex =>
    simp only [heq] at h
    by_cases hu : ex.user ≠ u
    · rw [if_pos hu] at h
      simp at h
    · rw [if_neg hu] at h
      simp only [save_locks, if_neg (show ¬(false = true) by decide)] at h
      have := congrArg Prod.snd h
      simpa using this.symm

/-- Deleting a key keeps every remaining entry an entry of the original table. -/
theorem mem_eraseLock {t : LockTable} {f0 : String} {x : String × LockRecord} :
    x ∈ eraseLock t f0 → x ∈ t := by
  induction t with
  | nil => simp [eraseLock]
  | cons e t ih =>
    obtain ⟨k, v⟩ := e
    simp only [eraseLock]
    by_cases hk : k = f0
    · rw [if_pos hk]
      intro hx
      exact List.mem_cons_of_mem _ hx
    · rw [if_neg hk]
      intro hx
      rcases List.mem_cons.mp hx with h | h
      · exact h ▸ List.mem_cons_self _ _
      · exact List.mem_cons_of_mem _ (ih h)

/-- C3 (amended): for every table state, `acquire_lock(filename, owner,
message)` fails with the already-locked error carrying the current owner if
and only if a record for the filename already exists, and the control file is
left unchanged; otherwise it succeeds, appending exactly one new record
holding the owner, the message and the current UTC time (the `now` argument
models `datetime.now(timezone.utc).isoformat()`), and the persisted control
file loads back to exactly that table. Amendment: the error carries only the
current owner, not the record's timestamp (see `C3_carries_no_timestamp`). -/
theorem C3_acquire_behaviour (t : LockTable) (filename user message now : String) :
    (∀ r, lookupLock t filename = some r →
      acquire_lock (some (lockDumps t)) filename user message now false false
        = (Except.error (PyErr.valueError ("File already locked by " ++ r.user)),
           some (lockDumps t)))
    ∧ (lookupLock t filename = none →
      acquire_lock (some (lockDumps t)) filename user message now false false
        = (Except.ok (), some (lockDumps (t ++ [(filename, ⟨user, now, message⟩)])))
      ∧ load_locks (some (lockDumps (t ++ [(filename, ⟨user, now, message⟩)]))) false
        = t ++ [(filename, ⟨user, now, message⟩)]) :=
  ⟨fun _ hr => acquire_lock_locked hr user message now,
   fun hn => ⟨acquire_lock_free hn user message now, load_dump _⟩⟩

/-- Witness for `C3_acquire_behaviour` at a concrete locked table. -/
theorem C3_acquire_behaviour_witness :
    acquire_lock (some (lockDumps [("4806148.mcam",
        ⟨"mmclean", "2025-01-01T00:00:00+00:00", "edit gear"⟩)]))
      "4806148.mcam" "jdoe" "fix" "2025-01-02T00:00:00+00:00" false false
      = (Except.error (PyErr.valueError "File already locked by mmclean"),
         some (lockDumps [("4806148.mcam",
           ⟨"mmclean", "2025-01-01T00:00:00+00:00", "edit gear"⟩)])) :=
  (C3_acquire_behaviour _ _ _ _ _).1
    ⟨"mmclean", "2025-01-01T00:00:00+00:00", "edit gear"⟩ (by decide)

/-- C3 (counterexample): the already-locked failure does not carry the
record's timestamp, contrary to the claim. Two control files whose records
differ only in their timestamp produce the very same error value, so the
error cannot determine - and therefore does not carry - the timestamp. -/
theorem C3_carries_no_timestamp :
    (acquire_lock (some (lockDumps [("f.mcam",
        ⟨"alice", "2025-01-01T00:00:00+00:00", "m1"⟩)]))
      "f.mcam" "bob" "m2" "2025-07-01T00:00:00+00:00" false false).1
      = Except.error (PyErr.valueError "File already locked by alice")
    ∧ (acquire_lock (some (lockDumps [("f.mcam",
        ⟨"alice", "2025-06-30T12:34:56+00:00", "m1"⟩)]))
      "f.mcam" "bob" "m2" "2025-07-01T00:00:00+00:00" false false).1
      = Except.error (PyErr.valueError "File already locked by alice")
    ∧ ("2025-01-01T00:00:00+00:00" : String) ≠ "2025-06-30T12:34:56+00:00" := by
  refine ⟨by decide, by decide, by decide⟩

/-- C4: for every table state, `release_lock` fails with the not-locked error
when no record exists, fails with the error carrying the actual owner when
the caller does not match the record's owner - in both failure cases the
control file is exactly the one it started with - and only on an owner match
removes the record and persists the result. -/
theorem C4_release_behaviour (t : LockTable) (filename user : String) :
    (lookupLock t filename = none →
      release_lock (some (lockDumps t)) filename user false false
        = (Except.error (PyErr.valueError "File is not locked"), some (lockDumps t)))
    ∧ (∀ r, lookupLock t filename = some r → r.user ≠ user →
      release_lock (some (lockDumps t)) filename user false false
        = (Except.error (PyErr.valueError ("Lock owned by " ++ r.user ++ ", not " ++ user)),
           some (lockDumps t)))
    ∧ (∀ r, lookupLock t filename = some r → r.user = user →
      release_lock (some (lockDumps t)) filename user false false
        = (Except.ok (), some (lockDumps (eraseLock t filename)))) :=
  ⟨fun hn => release_lock_notlocked hn user,
   fun _ hr hu => release_lock_notowner hr hu,
   fun _ hr hu => release_lock_owner hr hu⟩

/-- Witness for `C4_release_behaviour`: the ownership gate at a concrete
table - alice's lock, bob's release attempt, table unchanged. -/
theorem C4_release_behaviour_witness :
    release_lock (some (lockDumps [("f.mcam", ⟨"alice", "t1", "msg"⟩)])) "f.mcam" "bob"
        false false
      = (Except.error (PyErr.valueError "Lock owned by alice, not bob"),
         some (lockDumps [("f.mcam", ⟨"alice", "t1", "msg"⟩)])) :=
  (C4_release_behaviour _ _ _).2.1 ⟨"alice", "t1", "msg"⟩ (by decide) (by decide)

/-- C5: `load_locks` never raises on bad content - it is a total function
into tables, mirroring the catch-all handlers in the source - and a missing
control file, an empty control file, and malformed content all yield the
empty table. -/
theorem C5_load_tolerates_bad_content :
    load_locks none false = []
    ∧ load_locks (some "") false = []
    ∧ (∀ s : String, parseLocks s = none → load_locks (some s) false = []) := by
  refine ⟨rfl, by decide, ?_⟩
  intro s h
  rw [load_locks, if_neg (show ¬(false = true) by decide)]
  by_cases hb : pyBlank s = true
  · rw [if_pos hb]
  · rw [if_neg hb]
    simp only [h]

/-- Witness for `C5_load_tolerates_bad_content` at concrete non-JSON garbage. -/
theorem C5_load_tolerates_bad_content_witness :
    load_locks (some "this is not json") false = [] :=
  C5_load_tolerates_bad_content.2.2 _ (by decide)

/-- C6: `save_locks` overwrites the control file with the full serialized
table (which loads back to exactly the saved table), and an I/O failure
during the write propagates to the caller - the `except` handler logs and
re-raises, never swallowing it. -/
theorem C6_save_write_failures_propagate (locks : LockTable) :
    save_locks locks true = Except.error PyErr.osError
    ∧ save_locks locks false = Except.ok (lockDumps locks)
    ∧ load_locks (some (lockDumps locks)) false = locks :=
  ⟨rfl, rfl, load_dump locks⟩

/-- C7: for every well-formed lock table, the content a fault-free
`save_locks` writes loads back to exactly that table. -/
theorem C7_save_load_roundtrip (t : LockTable) (hwf : WFLockTable t) {s : String}
    (hsave : save_locks t false = Except.ok s) :
    load_locks (some s) false = t := by
  rw [save_locks, if_neg (show ¬(false = true) by decide)] at hsave
  rw [← Except.ok.inj hsave]
  exact load_dump t

/-- Witness for `C7_save_load_roundtrip` at a concrete one-record table. -/
theorem C7_save_load_roundtrip_witness :
    load_locks (some (lockDumps [("4200124.mcam",
        ⟨"jdoe", "2025-03-05T08:00:00+00:00", "rework"⟩)])) false
      = [("4200124.mcam", ⟨"jdoe", "2025-03-05T08:00:00+00:00", "rework"⟩)] :=
  C7_save_load_roundtrip _ (by decide) rfl

/-- C1 (the code violates the claim): `acquire_lock` does not hold the
Exclusive File Lock across its read-modify-write - the lock lives only inside
`load_locks` and, separately, inside `save_locks` - so the interleaving
load(alice), load(bob), save(alice), save(bob) of two concurrent acquirers of
the same filename over an initially empty control file lets BOTH calls
succeed, and bob's save overwrites alice's record (a lost update). Under the
claim exactly one of them would succeed and the other would fail with the
already-locked error. -/
theorem C1_lost_update_interleaving :
    runSched
      { disk := some ⟨[lbr, rbr]⟩,
        procs := [(⟨"f.mcam", "alice", "edit A", "2025-01-01T10:00:00+00:00"⟩,
                    AcquirePhase.beforeLoad),
                  (⟨"f.mcam", "bob", "edit B", "2025-01-01T10:00:01+00:00"⟩,
                    AcquirePhase.beforeLoad)] }
      [0, 1, 0, 1]
      = { disk := some (lockDumps [("f.mcam",
            ⟨"bob", "2025-01-01T10:00:01+00:00", "edit B"⟩)]),
          procs := [(⟨"f.mcam", "alice", "edit A", "2025-01-01T10:00:00+00:00"⟩,
                      AcquirePhase.finished (Except.ok ())),
                    (⟨"f.mcam", "bob", "edit B", "2025-01-01T10:00:01+00:00"⟩,
                      AcquirePhase.finished (Except.ok ()))] } := by
  decide

/-- C2 (the code violates the claim): `checkout_file` never reaches the
existence check or the delegation to `acquire_lock`: line 198 reads the
misspelled attribute `respository`, which no `FileService` instance has, so
every call raises `AttributeError` instead of the claimed `FileNotFound` or
delegation - for every service state and every argument. -/
theorem C2_checkout_raises_attribute_error (svc : FileService)
    (filename user message now : String) :
    FileService.checkout_file svc filename user message now
      = (Except.error (PyErr.attributeError "FileService" "respository"),
         svc.lock_manager) := by
  have hg : FileService.getattr svc "respository" = none := by
    rw [FileService.getattr, if_neg (by decide), if_neg (by decide)]
  simp only [FileService.checkout_file, hg]

/-- C8: for every path and open mode (neither influences the locking control
flow) and on both platform branches: when `open` fails no lock is ever taken
and the error propagates before any I/O on the handle; when `open` succeeds
the trace takes the lock only after the successful open (and a failed lock
call closes the handle and propagates); and on every exit path of a full
`with` block - enter failure, body return, or body exception - the lock is
not held and no handle is open afterwards. On the Unix branch the explicit
unlock in `__exit__` dies of the `fnctl` misspelling (a `NameError` the bare
`except` swallows), and the release happens through `close()`, which drops
the advisory lock with the handle. -/
theorem C8_lock_after_open_and_release_on_exit (lf : LockedFile)
    (isWindows bodyRaises : Bool) :
    (∀ lockOk : Bool,
      lockedFileEnter lf isWindows false lockOk
        = ([FileEvent.openFail], Except.error PyErr.osError)
      ∧ FileEvent.lockAcquired ∉ (lockedFileEnter lf isWindows false lockOk).1
      ∧ FileEvent.readWrite ∉ (lockedFileEnter lf isWindows false lockOk).1)
    ∧ lockedFileEnter lf isWindows true true
        = ([FileEvent.openOk, FileEvent.lockAcquired], Except.ok ())
    ∧ lockedFileEnter lf isWindows true false
        = ([FileEvent.openOk, FileEvent.lockFail, FileEvent.closed],
           Except.error PyErr.osError)
    ∧ (∀ openOk lockOk : Bool,
        lockHeldAfter (withLockedFile lf isWindows openOk lockOk bodyRaises).1 = false
        ∧ handleOpenAfter (withLockedFile lf isWindows openOk lockOk bodyRaises).1 = false) := by
  cases isWindows <;> cases bodyRaises <;>
    exact ⟨fun lockOk => by
        cases lockOk <;>
          exact ⟨rfl, (by decide : FileEvent.lockAcquired ∉ [FileEvent.openFail]),
            (by decide : FileEvent.readWrite ∉ [FileEvent.openFail])⟩,
      rfl, rfl,
      fun openOk lockOk => by cases openOk <;> cases lockOk <;> exact ⟨rfl, rfl⟩⟩

/-- C9 (counterexample): the Lock State Store itself does not enforce the
1-500 character message bound - that lives only in the HTTP layer's
`FileCheckoutRequest` schema. A single `acquire_lock` with the empty message
reaches, from the store's initial control file, a table whose record has a
0-character message. -/
theorem C9_message_bound_not_enforced :
    ReachableDisk (some (lockDumps [("f.mcam", ⟨"u1", "2025-01-01T00:00:00+00:00", ""⟩)]))
    ∧ lookupLock (load_locks (some (lockDumps [("f.mcam",
        ⟨"u1", "2025-01-01T00:00:00+00:00", ""⟩)])) false) "f.mcam"
      = some ⟨"u1", "2025-01-01T00:00:00+00:00", ""⟩
    ∧ ¬(1 ≤ (LockRecord.mk "u1" "2025-01-01T00:00:00+00:00" "").message.length) := by
  exact ⟨@ReachableDisk.acquire (some ⟨[lbr, rbr]⟩)
    (some (lockDumps [("f.mcam", ⟨"u1", "2025-01-01T00:00:00+00:00", ""⟩)]))
    "f.mcam" "u1" "" "2025-01-01T00:00:00+00:00" ReachableDisk.init (by decide),
    by decide, by decide⟩

/-- C9 (amended): the message bound is a conditional invariant - in every
control file reachable through the store's operations whose acquire calls all
pass messages of 1 to 500 characters (the bound `FileCheckoutRequest`
enforces upstream), every stored record's message is within 1 to 500
characters. The store itself stores the caller's message verbatim. -/
theorem C9_message_bound_invariant (d : Option String) (hreach : ReachableDiskValid d) :
    ∀ p ∈ load_locks d false, 1 ≤ p.2.message.length ∧ p.2.message.length ≤ 500 := by
  induction hreach with
  | init =>
    intro p hp
    rw [show load_locks (some ⟨[lbr, rbr]⟩) false = [] from by decide] at hp
    cases hp
  | @acquire d d2 f u m now hd h1 h2 hstep ih =>
    intro p hp
    rw [acquire_ok_disk hstep, load_dump] at hp
    rcases List.mem_append.mp hp with h | h
    · exact ih p h
    · rcases List.mem_singleton.mp h with rfl
      exact ⟨h1, h2⟩
  | @release d d2 f u hd hstep ih =>
    intro p hp
    rw [release_ok_disk hstep, load_dump] at hp
    exact ih p (mem_eraseLock hp)

/-- Witness for `C9_message_bound_invariant` at a concrete reachable state. -/
theorem C9_message_bound_invariant_witness :
    1 ≤ (LockRecord.mk "u1" "2025-01-01T00:00:00+00:00" "hello").message.length
    ∧ (LockRecord.mk "u1" "2025-01-01T00:00:00+00:00" "hello").message.length ≤ 500 :=
  C9_message_bound_invariant _
    (@ReachableDiskValid.acquire (some ⟨[lbr, rbr]⟩)
      (some (lockDumps [("f.mcam", ⟨"u1", "2025-01-01T00:00:00+00:00", "hello"⟩)]))
      "f.mcam" "u1" "hello" "2025-01-01T00:00:00+00:00"
      ReachableDiskValid.init (by decide) (by decide) (by decide))
    ("f.mcam", ⟨"u1", "2025-01-01T00:00:00+00:00", "hello"⟩) (by decide)

/-- C10: for every constructor argument, `FileRepository.__init__` - and with
it `FileService.__init__`, which constructs the repository first - raises
`TypeError`: the directory-creation call passes the unknown keyword
`exists_ok` to `Path.mkdir` (whose keywords are `mode`, `parents`,
`exist_ok`). No facade is ever constructed, so no checkout, checkin or
listing is reachable through one. -/
theorem C10_facade_construction_raises (repo_path : String) (dirListing : List String)
    (locksDisk : Option String) :
    FileRepository.init repo_path dirListing
      = Except.error (PyErr.typeError "mkdir() got an unexpected keyword argument exists_ok")
    ∧ FileService.init repo_path dirListing locksDisk
      = Except.error (PyErr.typeError "mkdir() got an unexpected keyword argument exists_ok") := by
  have h1 : FileRepository.init repo_path dirListing
      = Except.error (PyErr.typeError "mkdir() got an unexpected keyword argument exists_ok") := by
    rw [FileRepository.init, if_neg (by decide)]
  exact ⟨h1, by simp only [FileService.init, h1]⟩
